import Mathlib

/-!
Shallow embedding of `consensus/ethash/api.go` from k1pool/go-bitnet.

The file models the four facade operations of the ethash RPC API
(`GetWork`, `SubmitWork`, `SubmitHashrate`, `GetHashrate`).  Each Go
operation interacts with the engine through channels; here every call is
a pure function of
  * the `API` value (whether `api.ethash.remote` is nil),
  * a per-call environment resolving the nondeterministic choices the Go
    scheduler makes (which arm of each `select` fires, what the worker
    puts on the reply channel, whether a reply ever arrives),
  * a fresh-channel counter `n0`: each `make(chan _, 1)` in the call body
    allocates the next channel identifier, so channel freshness and
    capacity are explicit.
A call returns its result together with the trace of messages it sent on
the three intake channels and the list of channels it allocated.
-/

/-- A Go channel, identified by an allocation id, with its buffer capacity. -/
structure Chan where
  id : Nat
  cap : Nat
deriving DecidableEq

/-- Go `error` values occurring in `api.go`: the `errors.New("not supported")`
value made in `GetWork`, the package-level `errEthashStopped =
errors.New("ethash stopped")`, and arbitrary worker-produced errors
(abstracted by their message). Distinct constructors model distinct Go
error values. -/
inductive GoError where
  | notSupported
  | ethashStopped
  | workerError (msg : String)
deriving DecidableEq

/-- The Go array type `[11]string` of `GetWork` work packages. -/
abbrev Work := Fin 11 → String

/-- The zero value `[11]string\x7b\x7d`: eleven empty strings. -/
def emptyWork : Work := fun _ => ""

/-- The `sealWork` message sent on `fetchWorkCh` (fields as set at
`api.go:55`): an error reply channel and a result reply channel. -/
structure sealWork where
  errc : Chan
  res : Chan
deriving DecidableEq

/-- The `mineResult` message sent on `submitWorkCh` (fields as set at
`api.go:86-92`). `extraNonce = none` models the nil `[]byte`. Hash-valued
fields are abstracted to `Nat` since the facade never inspects them. -/
structure mineResult where
  nonce : Nat
  mixDigest : Nat
  hash : Nat
  extraNonce : Option (List Nat)
  errc : Chan
deriving DecidableEq

/-- The `hashrate` message sent on `submitRateCh` (fields as set at
`api.go:113`). -/
structure hashrate where
  id : Nat
  rate : Nat
  done : Chan
deriving DecidableEq

/-- Messages a call sends on the three intake channels of the remote handle. -/
structure Trace where
  fetchWorkMsgs : List sealWork
  submitWorkMsgs : List mineResult
  submitRateMsgs : List hashrate
deriving DecidableEq

/-- The empty trace: no message sent on any intake channel. -/
def Trace.empty : Trace := ⟨[], [], []⟩

/-- Outcome of a `select` racing a channel send against `<-exitCh`:
either the send completes or the shutdown signal is observed. -/
inductive RaceOutcome where
  | sent
  | exit
deriving DecidableEq

/-- The `Ethash` engine as seen from `api.go`: the `remote` pointer
(`none` models nil) and the value of the engine accessor used by
`GetHashrate`. -/
structure Ethash where
  remote : Option Unit
  hashrateVal : Nat
deriving DecidableEq

/-- Modelled from the spec: the engine's aggregate hash-rate accessor
`Ethash.Hashrate` lives outside `api.go`; per the spec `GetHashrate` is a
"pure synchronous passthrough to the engine's own aggregate hash-rate
accessor", so the accessor's value (after the `uint64` widening) is
abstracted as the field `hashrateVal`. -/
def Ethash.Hashrate (e : Ethash) : Nat := e.hashrateVal

/-- `API` from `api.go:26`: exposes ethash methods for the RPC interface. -/
structure API where
  ethash : Ethash
deriving DecidableEq

/-- Hex digit decoding as in Go `encoding/hex` (`0-9`, `a-f`, `A-F`). -/
def fromHexChar (c : Char) : Option Nat :=
  if '0' ≤ c ∧ c ≤ '9' then some (c.toNat - '0'.toNat)
  else if 'a' ≤ c ∧ c ≤ 'f' then some (c.toNat - 'a'.toNat + 10)
  else if 'A' ≤ c ∧ c ≤ 'F' then some (c.toNat - 'A'.toNat + 10)
  else none

/-- Pairwise hex decoding as in Go `encoding/hex.Decode`: fails on odd
length or on any non-hex character, otherwise yields one byte per pair. -/
def hexPairs : List Char → Option (List Nat)
  | [] => some []
  | [_] => none
  | a :: b :: rest =>
    match fromHexChar a, fromHexChar b, hexPairs rest with
    | some hi, some lo, some tl => some ((16 * hi + lo) :: tl)
    | _, _, _ => none

/-- `Decode` from the imported `github.com/ethereum/go-ethereum/common/hexutil`
package: the input must be nonempty, start with `0x` or `0X`, and the rest
must be an even-length hex string; any failure yields `none` (the caller in
`api.go` only tests `err != nil`, so the error identity is irrelevant). -/
def hexutilDecode (s : String) : Option (List Nat) :=
  match s.data with
  | [] => none
  | '0' :: c :: rest => if c = 'x' ∨ c = 'X' then hexPairs rest else none
  | _ => none

/-- The extra-nonce computation of `api.go:75-82`: `none` means the whole
call returns false (decode failure); `some none` means the nil slice
(no `extraNonceStr` supplied); `some (some bs)` the decoded bytes. -/
def submitWorkExtraNonce (extraNonceStr : Option String) : Option (Option (List Nat)) :=
  match extraNonceStr with
  | none => some none
  | some s =>
    match hexutilDecode s with
    | none => none
    | some bs => some (some bs)

/-- Per-call environment for `GetWork`: the outcome of the send/exit race,
and the worker's reply — `some (Sum.inl w)` for a work package on `workCh`,
`some (Sum.inr e)` for an error on `errc`, `none` when no reply ever
arrives. -/
structure GetWorkEnv where
  sendRace : RaceOutcome
  reply : Option (Work ⊕ GoError)

/-- Result of a `GetWork` call: the returned pair, or `blocked` when the
call never returns. -/
inductive GetWorkRes where
  | ret (w : Work) (e : Option GoError)
  | blocked

/-- Full observable outcome of a `GetWork` call: result, messages sent,
channels allocated, and the final fresh-channel counter. -/
structure GetWorkOut where
  res : GetWorkRes
  trace : Trace
  chans : List Chan
  next : Nat

/-- `API.GetWork` (`api.go:45-65`): nil remote fails with "not supported";
otherwise allocate `workCh` and `errc` (capacity 1 each), race the
`sealWork` send against `exitCh` (`exit` wins: "ethash stopped"), then
block on `workCh` vs `errc`. -/
def API.getWork (api : API) (env : GetWorkEnv) (n0 : Nat) : GetWorkOut :=
  match api.ethash.remote with
  | none => ⟨.ret emptyWork (some .notSupported), Trace.empty, [], n0⟩
  | some _ =>
    let workCh : Chan := ⟨n0, 1⟩
    let errc : Chan := ⟨n0 + 1, 1⟩
    match env.sendRace with
    | .exit => ⟨.ret emptyWork (some .ethashStopped), Trace.empty, [workCh, errc], n0 + 2⟩
    | .sent =>
      let t : Trace := ⟨[⟨errc, workCh⟩], [], []⟩
      match env.reply with
      | none => ⟨.blocked, t, [workCh, errc], n0 + 2⟩
      | some (.inl w) => ⟨.ret w none, t, [workCh, errc], n0 + 2⟩
      | some (.inr e) => ⟨.ret emptyWork (some e), t, [workCh, errc], n0 + 2⟩

/-- Result of a boolean-returning call (`SubmitWork`, `SubmitHashrate`):
the returned boolean, or `blocked` when the call never returns. -/
inductive BoolRes where
  | ret (b : Bool)
  | blocked
deriving DecidableEq

/-- Full observable outcome of a boolean-returning call. -/
structure BoolOut where
  res : BoolRes
  trace : Trace
  chans : List Chan
  next : Nat
deriving DecidableEq

/-- Per-call environment for `SubmitWork`: the send/exit race outcome and
the worker's reply on `errc` — `some none` for a nil error, `some (some e)`
for an error value, `none` when no reply ever arrives. -/
structure SubmitWorkEnv where
  sendRace : RaceOutcome
  reply : Option (Option GoError)

/-- `API.SubmitWork` (`api.go:70-98`): nil remote returns false; a failing
extra-nonce decode returns false before anything else happens; otherwise
allocate `errc` (capacity 1), race the `mineResult` send against `exitCh`
(`exit` wins: false), then block on `errc` and return `err == nil`. -/
def API.submitWork (api : API) (nonce hash digest : Nat) (extraNonceStr : Option String)
    (env : SubmitWorkEnv) (n0 : Nat) : BoolOut :=
  match api.ethash.remote with
  | none => ⟨.ret false, Trace.empty, [], n0⟩
  | some _ =>
    match submitWorkExtraNonce extraNonceStr with
    | none => ⟨.ret false, Trace.empty, [], n0⟩
    | some extraNonce =>
      let errc : Chan := ⟨n0, 1⟩
      match env.sendRace with
      | .exit => ⟨.ret false, Trace.empty, [errc], n0 + 1⟩
      | .sent =>
        let t : Trace := ⟨[], [⟨nonce, digest, hash, extraNonce, errc⟩], []⟩
        match env.reply with
        | none => ⟨.blocked, t, [errc], n0 + 1⟩
        | some err => ⟨.ret err.isNone, t, [errc], n0 + 1⟩

/-- Per-call environment for `SubmitHashrate`: the send/exit race outcome
and whether the completion signal on `done` is ever delivered. -/
structure SubmitHashrateEnv where
  sendRace : RaceOutcome
  doneDelivered : Bool

/-- `API.SubmitHashrate` (`api.go:106-121`): nil remote returns false;
otherwise allocate `done` (capacity 1), race the `hashrate` send against
`exitCh` (`exit` wins: false), then block unconditionally on `done` and
return true. -/
def API.submitHashrate (api : API) (rate id : Nat) (env : SubmitHashrateEnv)
    (n0 : Nat) : BoolOut :=
  match api.ethash.remote with
  | none => ⟨.ret false, Trace.empty, [], n0⟩
  | some _ =>
    let done : Chan := ⟨n0, 1⟩
    match env.sendRace with
    | .exit => ⟨.ret false, Trace.empty, [done], n0 + 1⟩
    | .sent =>
      let t : Trace := ⟨[], [], [⟨id, rate, done⟩]⟩
      if env.doneDelivered then ⟨.ret true, t, [done], n0 + 1⟩
      else ⟨.blocked, t, [done], n0 + 1⟩

/-- `API.GetHashrate` (`api.go:124-126`): `return uint64(api.ethash.Hashrate())`.
The body contains no channel operation, so its trace is empty by
construction; the paired trace makes that absence statable. -/
def API.getHashrate (api : API) : Nat × Trace :=
  (api.ethash.Hashrate, Trace.empty)

/-- A channel allocated by a call that started with fresh counter `a` and
finished with counter `b`, with the capacity-1 buffer every `make` in
`api.go` requests. -/
def Chan.freshIn (c : Chan) (a b : Nat) : Prop :=
  a ≤ c.id ∧ c.id < b ∧ c.cap = 1

/-- Claim C1: with no remote engine configured (`api.ethash.remote` nil),
`GetWork` returns the empty 11-string array with the "not supported" error,
`SubmitWork` and `SubmitHashrate` return false, and none of the three sends
a message on any intake channel (nor allocates a channel). -/
theorem noRemote_allOps_fail (api : API) (h : api.ethash.remote = none)
    (envW : GetWorkEnv) (envS : SubmitWorkEnv) (envH : SubmitHashrateEnv)
    (nonce hash digest rate idv n0 n1 n2 : Nat) (ens : Option String) :
    api.getWork envW n0 = ⟨.ret emptyWork (some .notSupported), Trace.empty, [], n0⟩ ∧
    api.submitWork nonce hash digest ens envS n1 = ⟨.ret false, Trace.empty, [], n1⟩ ∧
    api.submitHashrate rate idv envH n2 = ⟨.ret false, Trace.empty, [], n2⟩ := by
  refine ⟨?_, ?_, ?_⟩ <;>
    simp [API.getWork, API.submitWork, API.submitHashrate, h]

/-- Witness for C1 at a concrete API value with nil remote. -/
theorem noRemote_allOps_fail_witness :
    (API.mk (Ethash.mk none 0)).getWork ⟨.sent, none⟩ 0 =
      ⟨.ret emptyWork (some .notSupported), Trace.empty, [], 0⟩ ∧
    (API.mk (Ethash.mk none 0)).submitWork 1 2 3 none ⟨.sent, some none⟩ 0 =
      ⟨.ret false, Trace.empty, [], 0⟩ ∧
    (API.mk (Ethash.mk none 0)).submitHashrate 4 5 ⟨.sent, true⟩ 0 =
      ⟨.ret false, Trace.empty, [], 0⟩ :=
  noRemote_allOps_fail (API.mk (Ethash.mk none 0)) rfl
    ⟨.sent, none⟩ ⟨.sent, some none⟩ ⟨.sent, true⟩ 1 2 3 4 5 0 0 0 none

/-- Claim C2: when the `mineResult` message is sent and the worker replies
on its error channel, `SubmitWork` returns true on a nil-error reply and
false on any error reply; the error value itself never influences the
boolean beyond being non-nil. -/
theorem submitWork_reply_outcome (api : API) (h : api.ethash.remote = some ())
    (nonce hash digest n0 : Nat) (ens : Option String) (extra : Option (List Nat))
    (hd : submitWorkExtraNonce ens = some extra) :
    (api.submitWork nonce hash digest ens ⟨.sent, some none⟩ n0).res = .ret true ∧
    ∀ e : GoError,
      (api.submitWork nonce hash digest ens ⟨.sent, some (some e)⟩ n0).res = .ret false := by
  refine ⟨?_, fun e => ?_⟩ <;> simp [API.submitWork, h, hd]

/-- Witness for C2 at a concrete call, with a concrete worker error. -/
theorem submitWork_reply_outcome_witness :
    ((API.mk (Ethash.mk (some ()) 0)).submitWork 1 2 3 none ⟨.sent, some none⟩ 0).res =
      .ret true ∧
    ((API.mk (Ethash.mk (some ()) 0)).submitWork 1 2 3 none
        ⟨.sent, some (some (.workerError "stale"))⟩ 0).res = .ret false :=
  ⟨(submitWork_reply_outcome (API.mk (Ethash.mk (some ()) 0)) rfl 1 2 3 0 none none rfl).1,
   (submitWork_reply_outcome (API.mk (Ethash.mk (some ()) 0)) rfl 1 2 3 0 none none rfl).2
     (.workerError "stale")⟩

/-- Claim C3: when the shutdown signal wins the send race, `GetWork`
returns the empty array with the dedicated "ethash stopped" error — a
value distinct from the "not supported" error — while `SubmitWork` and
`SubmitHashrate` return false. -/
theorem exitRace_allOps (api : API) (h : api.ethash.remote = some ())
    (rep : Option (Work ⊕ GoError)) (repS : Option (Option GoError)) (d : Bool)
    (nonce hash digest rate idv n0 n1 n2 : Nat) (ens : Option String)
    (extra : Option (List Nat)) (hd : submitWorkExtraNonce ens = some extra) :
    (api.getWork ⟨.exit, rep⟩ n0).res = .ret emptyWork (some .ethashStopped) ∧
    GoError.ethashStopped ≠ GoError.notSupported ∧
    (api.submitWork nonce hash digest ens ⟨.exit, repS⟩ n1).res = .ret false ∧
    (api.submitHashrate rate idv ⟨.exit, d⟩ n2).res = .ret false := by
  refine ⟨?_, ?_, ?_, ?_⟩ <;>
    simp [API.getWork, API.submitWork, API.submitHashrate, h, hd]

/-- Witness for C3 at a concrete call where shutdown wins every race. -/
theorem exitRace_allOps_witness :
    ((API.mk (Ethash.mk (some ()) 0)).getWork ⟨.exit, none⟩ 0).res =
      .ret emptyWork (some .ethashStopped) ∧
    GoError.ethashStopped ≠ GoError.notSupported ∧
    ((API.mk (Ethash.mk (some ()) 0)).submitWork 1 2 3 none ⟨.exit, none⟩ 0).res =
      .ret false ∧
    ((API.mk (Ethash.mk (some ()) 0)).submitHashrate 4 5 ⟨.exit, true⟩ 0).res =
      .ret false :=
  exitRace_allOps (API.mk (Ethash.mk (some ()) 0)) rfl none none true 1 2 3 4 5 0 0 0
    none none rfl

/-- Claim C4: a `SubmitWork` call whose non-nil `extraNonceStr` fails hex
decoding returns false immediately: no message on any intake channel, no
channel allocated, and the call terminates (it is not blocked on a reply). -/
theorem submitWork_decodeFailure (api : API) (h : api.ethash.remote = some ())
    (s : String) (hfail : hexutilDecode s = none)
    (nonce hash digest n0 : Nat) (env : SubmitWorkEnv) :
    api.submitWork nonce hash digest (some s) env n0 =
      ⟨.ret false, Trace.empty, [], n0⟩ := by
  simp [API.submitWork, submitWorkExtraNonce, h, hfail]

/-- Witness for C4: the string "zz" has no 0x marker, so decoding fails. -/
theorem submitWork_decodeFailure_witness :
    (API.mk (Ethash.mk (some ()) 0)).submitWork 1 2 3 (some "zz") ⟨.sent, some none⟩ 0 =
      ⟨.ret false, Trace.empty, [], 0⟩ :=
  submitWork_decodeFailure (API.mk (Ethash.mk (some ()) 0)) rfl "zz" (by decide)
    1 2 3 0 ⟨.sent, some none⟩

/-- Claim C5: when the request is sent and the worker answers on the
success channel with an 11-string work package, `GetWork` returns exactly
that package, unmodified, with a nil error. -/
theorem getWork_success (api : API) (h : api.ethash.remote = some ())
    (w : Work) (n0 : Nat) :
    (api.getWork ⟨.sent, some (Sum.inl w)⟩ n0).res = .ret w none := by
  simp [API.getWork, h]

/-- Witness for C5 at a concrete work package. -/
theorem getWork_success_witness :
    ((API.mk (Ethash.mk (some ()) 0)).getWork
        ⟨.sent, some (Sum.inl (fun i => toString i.val))⟩ 0).res =
      .ret (fun i => toString i.val) none :=
  getWork_success (API.mk (Ethash.mk (some ()) 0)) rfl (fun i => toString i.val) 0

/-- Claim C6: with a configured engine, `SubmitHashrate` returns true
exactly when its message wins the send race and the completion signal is
delivered; after a successful send the call can only return true — if the
completion signal never arrives it blocks rather than returning. -/
theorem submitHashrate_iff (api : API) (h : api.ethash.remote = some ())
    (rate idv n0 : Nat) (env : SubmitHashrateEnv) :
    ((api.submitHashrate rate idv env n0).res = .ret true ↔
      env.sendRace = .sent ∧ env.doneDelivered = true) ∧
    (env.sendRace = .sent → env.doneDelivered = false →
      (api.submitHashrate rate idv env n0).res = .blocked) := by
  obtain ⟨sr, d⟩ := env
  cases sr <;> cases d <;> simp [API.submitHashrate, h]

/-- Witness for C6 at a concrete delivered call. -/
theorem submitHashrate_iff_witness :
    (((API.mk (Ethash.mk (some ()) 0)).submitHashrate 4 5 ⟨.sent, true⟩ 0).res =
        .ret true ↔
      (SubmitHashrateEnv.mk .sent true).sendRace = .sent ∧
        (SubmitHashrateEnv.mk .sent true).doneDelivered = true) ∧
    ((SubmitHashrateEnv.mk .sent true).sendRace = .sent →
      (SubmitHashrateEnv.mk .sent true).doneDelivered = false →
      ((API.mk (Ethash.mk (some ()) 0)).submitHashrate 4 5 ⟨.sent, true⟩ 0).res =
        .blocked) :=
  submitHashrate_iff (API.mk (Ethash.mk (some ()) 0)) rfl 4 5 0 ⟨.sent, true⟩

/-- Claim C7: once the message of `GetWork` or `SubmitWork` has been sent,
the wait on the reply channel(s) has no shutdown arm: if the worker never
replies the call blocks forever. -/
theorem postSend_noCancellation (api : API) (h : api.ethash.remote = some ())
    (nonce hash digest n0 n1 : Nat) (ens : Option String)
    (extra : Option (List Nat)) (hd : submitWorkExtraNonce ens = some extra) :
    (api.getWork ⟨.sent, none⟩ n0).res = .blocked ∧
    (api.submitWork nonce hash digest ens ⟨.sent, none⟩ n1).res = .blocked := by
  constructor <;> simp [API.getWork, API.submitWork, h, hd]

/-- Witness for C7 at a concrete call whose worker never replies. -/
theorem postSend_noCancellation_witness :
    ((API.mk (Ethash.mk (some ()) 0)).getWork ⟨.sent, none⟩ 0).res = .blocked ∧
    ((API.mk (Ethash.mk (some ()) 0)).submitWork 1 2 3 none ⟨.sent, none⟩ 0).res =
      .blocked :=
  postSend_noCancellation (API.mk (Ethash.mk (some ()) 0)) rfl 1 2 3 0 0 none none rfl

/-- Claim C8: every message a facade operation sends carries reply
channels allocated inside that very call (ids in the call's fresh range)
with capacity one; `GetWork`'s two reply channels are distinct; the
embedded channels are exactly among the call's own allocations; and
channels of calls with disjoint fresh ranges (as sequential calls have)
can never coincide. -/
theorem sent_reply_channels_fresh (api : API) (h : api.ethash.remote = some ())
    (envW : GetWorkEnv) (envS : SubmitWorkEnv) (envH : SubmitHashrateEnv)
    (nonce hash digest rate idv n0 n1 n2 : Nat) (ens : Option String)
    (extra : Option (List Nat)) (hd : submitWorkExtraNonce ens = some extra) :
    (∀ m ∈ (api.getWork envW n0).trace.fetchWorkMsgs,
      m.errc.freshIn n0 (api.getWork envW n0).next ∧
      m.res.freshIn n0 (api.getWork envW n0).next ∧
      m.errc ≠ m.res ∧
      m.errc ∈ (api.getWork envW n0).chans ∧ m.res ∈ (api.getWork envW n0).chans) ∧
    (∀ m ∈ (api.submitWork nonce hash digest ens envS n1).trace.submitWorkMsgs,
      m.errc.freshIn n1 (api.submitWork nonce hash digest ens envS n1).next ∧
      m.errc ∈ (api.submitWork nonce hash digest ens envS n1).chans) ∧
    (∀ m ∈ (api.submitHashrate rate idv envH n2).trace.submitRateMsgs,
      m.done.freshIn n2 (api.submitHashrate rate idv envH n2).next ∧
      m.done ∈ (api.submitHashrate rate idv envH n2).chans) ∧
    (∀ (c c' : Chan) (a b a' b' : Nat),
      c.freshIn a b → c'.freshIn a' b' → b ≤ a' → c.id ≠ c'.id) := by
  refine ⟨?_, ?_, ?_, ?_⟩
  · intro m hm
    obtain ⟨sr, rep⟩ := envW
    cases sr
    · rcases rep with _ | (w | e) <;>
        · simp only [API.getWork, h, Chan.freshIn] at hm ⊢
          rw [List.mem_singleton] at hm
          subst hm
          refine ⟨⟨?_, ?_, rfl⟩, ⟨?_, ?_, rfl⟩, ?_, by simp, by simp⟩ <;> simp
    · simp [API.getWork, h, Trace.empty] at hm
  · intro m hm
    obtain ⟨sr, rep⟩ := envS
    cases sr
    · rcases rep with _ | err <;>
        · simp only [API.submitWork, h, hd, Chan.freshIn] at hm ⊢
          rw [List.mem_singleton] at hm
          subst hm
          exact ⟨⟨Nat.le_refl _, Nat.lt_succ_self _, rfl⟩, by simp⟩
    · simp [API.submitWork, h, hd, Trace.empty] at hm
  · intro m hm
    obtain ⟨sr, d⟩ := envH
    cases sr
    · cases d <;>
        · simp only [API.submitHashrate, h, Chan.freshIn] at hm ⊢
          simp at hm
          subst hm
          exact ⟨⟨Nat.le_refl _, Nat.lt_succ_self _, rfl⟩, by simp⟩
    · simp [API.submitHashrate, h, Trace.empty] at hm
  · intro c c' a b a' b' hc hc' hle
    obtain ⟨h1, h2, _⟩ := hc
    obtain ⟨h3, h4, _⟩ := hc'
    omega

/-- Witness for C8 at concrete calls with disjoint fresh ranges. -/
theorem sent_reply_channels_fresh_witness :
    (∀ m ∈ ((API.mk (Ethash.mk (some ()) 0)).getWork ⟨.sent, none⟩ 0).trace.fetchWorkMsgs,
      m.errc.freshIn 0 ((API.mk (Ethash.mk (some ()) 0)).getWork ⟨.sent, none⟩ 0).next ∧
      m.res.freshIn 0 ((API.mk (Ethash.mk (some ()) 0)).getWork ⟨.sent, none⟩ 0).next ∧
      m.errc ≠ m.res ∧
      m.errc ∈ ((API.mk (Ethash.mk (some ()) 0)).getWork ⟨.sent, none⟩ 0).chans ∧
      m.res ∈ ((API.mk (Ethash.mk (some ()) 0)).getWork ⟨.sent, none⟩ 0).chans) ∧
    (∀ m ∈ ((API.mk (Ethash.mk (some ()) 0)).submitWork 1 2 3 none ⟨.sent, some none⟩
        2).trace.submitWorkMsgs,
      m.errc.freshIn 2 ((API.mk (Ethash.mk (some ()) 0)).submitWork 1 2 3 none
        ⟨.sent, some none⟩ 2).next ∧
      m.errc ∈ ((API.mk (Ethash.mk (some ()) 0)).submitWork 1 2 3 none
        ⟨.sent, some none⟩ 2).chans) ∧
    (∀ m ∈ ((API.mk (Ethash.mk (some ()) 0)).submitHashrate 4 5 ⟨.sent, true⟩
        3).trace.submitRateMsgs,
      m.done.freshIn 3 ((API.mk (Ethash.mk (some ()) 0)).submitHashrate 4 5
        ⟨.sent, true⟩ 3).next ∧
      m.done ∈ ((API.mk (Ethash.mk (some ()) 0)).submitHashrate 4 5 ⟨.sent, true⟩ 3).chans) ∧
    (∀ (c c' : Chan) (a b a' b' : Nat),
      c.freshIn a b → c'.freshIn a' b' → b ≤ a' → c.id ≠ c'.id) :=
  sent_reply_channels_fresh (API.mk (Ethash.mk (some ()) 0)) rfl ⟨.sent, none⟩
    ⟨.sent, some none⟩ ⟨.sent, true⟩ 1 2 3 4 5 0 2 3 none none rfl

/-- Claim C9: `GetHashrate` is a direct synchronous passthrough to the
engine accessor `Ethash.Hashrate`: it sends no message on any channel,
has no failure path, and does not consult `remote` — the same value comes
back whether or not a remote engine is configured (`r` arbitrary,
including `none`). -/
theorem getHashrate_passthrough (r : Option Unit) (hv : Nat) :
    (API.mk (Ethash.mk r hv)).getHashrate = ((Ethash.mk r hv).Hashrate, Trace.empty) ∧
    (API.mk (Ethash.mk r hv)).getHashrate.1 = hv ∧
    (API.mk (Ethash.mk r hv)).getHashrate =
      (API.mk (Ethash.mk none hv)).getHashrate := by
  exact ⟨rfl, rfl, rfl⟩

/-- Claim C10: the `mineResult` message a sending `SubmitWork` call puts
on the submit-work intake channel is the only message the call sends, and
it carries exactly the caller's nonce, hash and mix digest, with
`extraNonce` the hex-decoded bytes of `extraNonceStr` when that argument
is present and the nil slice when it is absent. -/
theorem submitWork_message_fields (api : API) (h : api.ethash.remote = some ())
    (nonce hash digest n0 : Nat) (ens : Option String) (extra : Option (List Nat))
    (hd : submitWorkExtraNonce ens = some extra) (rep : Option (Option GoError)) :
    (api.submitWork nonce hash digest ens ⟨.sent, rep⟩ n0).trace =
      ⟨[], [⟨nonce, digest, hash, extra, ⟨n0, 1⟩⟩], []⟩ ∧
    (ens = none → extra = none) ∧
    (∀ s, ens = some s → ∃ bs, hexutilDecode s = some bs ∧ extra = some bs) := by
  refine ⟨?_, ?_, ?_⟩
  · rcases rep with _ | err <;> simp [API.submitWork, h, hd]
  · intro he
    subst he
    simp [submitWorkExtraNonce] at hd
    exact hd.symm
  · intro s hs
    subst hs
    simp only [submitWorkExtraNonce] at hd
    rcases hdec : hexutilDecode s with _ | bs
    · rw [hdec] at hd; exact absurd hd (by simp)
    · rw [hdec] at hd
      simp at hd
      exact ⟨bs, rfl, hd.symm⟩

/-- Witness for C10 with a present extra nonce "0x0a" decoding to the
single byte 10. -/
theorem submitWork_message_fields_witness :
    ((API.mk (Ethash.mk (some ()) 0)).submitWork 1 2 3 (some "0x0a")
        ⟨.sent, some none⟩ 7).trace =
      ⟨[], [⟨1, 3, 2, some [10], ⟨7, 1⟩⟩], []⟩ ∧
    ((some "0x0a" : Option String) = none → (some [10] : Option (List Nat)) = none) ∧
    (∃ bs, hexutilDecode "0x0a" = some bs ∧ (some [10] : Option (List Nat)) = some bs) :=
  ⟨(submitWork_message_fields (API.mk (Ethash.mk (some ()) 0)) rfl 1 2 3 7
      (some "0x0a") (some [10]) (by decide) (some none)).1,
   (submitWork_message_fields (API.mk (Ethash.mk (some ()) 0)) rfl 1 2 3 7
      (some "0x0a") (some [10]) (by decide) (some none)).2.1,
   (submitWork_message_fields (API.mk (Ethash.mk (some ()) 0)) rfl 1 2 3 7
      (some "0x0a") (some [10]) (by decide) (some none)).2.2 "0x0a" rfl⟩
